import Mathlib

/-!
Shallow embedding of the opengl-rs repository (a minimal OpenGL rendering
harness in Rust) for checking its natural-language specification.

Embedded parts:
- `src/render_derive/src/lib.rs` : the `VertexAttribPointers` derive, which
  generates a `vertex_attrib_pointers` function computing stride and running
  byte offsets for each field of a vertex record struct;
- `src/src/render/data.rs` : the per-type `vertex_attrib_pointer` describe
  functions (VertVec3D, VertRGBA, VertI8, VertI8Float);
- `src/src/render/buffer.rs` : `Buffer::static_draw_data` byte-size upload;
- `src/src/render/shader.rs` : `Shader::from_res` / `Program::from_res`,
  shader-kind classification by extension and staged error handling;
- `src/src/resources.rs` : `Resources::load_cstring` and its error variants;
- `src/src/main.rs` : `failure_to_string`, the cause-chain formatter.

GPU driver calls (compile/link outcomes) and the file system are modelled as
explicit oracles passed in as functions; build-time panics of the derive
become `Except String` errors carrying the panic message.
-/

deriving instance DecidableEq for Except

namespace OpenglRs

/-! ### Constants from the `gl` crate bindings -/

def GL_FLOAT : Nat := 0x1406

def GL_BYTE : Nat := 0x1400

def GL_UNSIGNED_INT_2_10_10_10_REV : Nat := 0x8368

def GL_VERTEX_SHADER : Nat := 0x8B31

def GL_FRAGMENT_SHADER : Nat := 0x8B30

def GL_ARRAY_BUFFER : Nat := 0x8892

def GL_STATIC_DRAW : Nat := 0x88E4

/-! ### GPU commands issued by the embedded code

`src/src/render/data.rs` issues `EnableVertexAttribArray` followed by either
`VertexAttribPointer` (float pointer form, with a normalized flag) or
`VertexAttribIPointer` (raw-integer pointer form); `buffer.rs` issues
`BufferData`. -/

inductive GlCmd : Type where
  | enableVertexAttribArray (location : Nat)
  | vertexAttribPointer (location count etype : Nat) (normalized : Bool)
      (stride offset : Nat)
  | vertexAttribIPointer (location count etype : Nat) (stride offset : Nat)
  | bufferData (target byteSize usage : Nat)
  deriving DecidableEq

/-- `VertVec3D::vertex_attrib_pointer` (data.rs lines 22-38): 3 components of
`gl::FLOAT`, not normalized, float pointer form. -/
def vertVec3DAttribPointer (stride location offset : Nat) : List GlCmd :=
  [GlCmd.enableVertexAttribArray location,
   GlCmd.vertexAttribPointer location 3 GL_FLOAT false stride offset]

/-- `VertRGBA::vertex_attrib_pointer` (data.rs lines 66-83): 4 components of
`gl::UNSIGNED_INT_2_10_10_10_REV`, normalized, float pointer form. -/
def vertRGBAAttribPointer (stride location offset : Nat) : List GlCmd :=
  [GlCmd.enableVertexAttribArray location,
   GlCmd.vertexAttribPointer location 4 GL_UNSIGNED_INT_2_10_10_10_REV true stride offset]

/-- `VertI8::vertex_attrib_pointer` (data.rs lines 100-115): 1 component of
`gl::BYTE` through `VertexAttribIPointer`, the raw-integer pointer form. -/
def vertI8AttribPointer (stride location offset : Nat) : List GlCmd :=
  [GlCmd.enableVertexAttribArray location,
   GlCmd.vertexAttribIPointer location 1 GL_BYTE stride offset]

/-- `VertI8Float::vertex_attrib_pointer` (data.rs lines 138-154): 1 component
of `gl::BYTE`, normalized, float pointer form. -/
def vertI8FloatAttribPointer (stride location offset : Nat) : List GlCmd :=
  [GlCmd.enableVertexAttribArray location,
   GlCmd.vertexAttribPointer location 1 GL_BYTE true stride offset]

/-! ### The closed set of vertex field types (data.rs)

Each variant is one of the `repr(C, packed)` structs of data.rs. The byte
sizes come from their declarations: `VertVec3D` is three `f32` (12 bytes),
`VertRGBA` wraps `vec_2_10_10_10::Vector`, a packed `u32` (4 bytes),
`VertI8` and `VertI8Float` wrap one `i8` (1 byte). -/

inductive FieldTy : Type where
  | vec3d
  | rgba
  | i8v
  | i8f
  deriving DecidableEq

/-- `std::mem::size_of` for each field type (all are `repr(C, packed)`). -/
def FieldTy.sizeOf : FieldTy → Nat
  | .vec3d => 12
  | .rgba => 4
  | .i8v => 1
  | .i8f => 1

/-- Dispatch of `#field_ty::vertex_attrib_pointer(gl, stride, location, offset)`
to the four implementations in data.rs. -/
def FieldTy.describe : FieldTy → Nat → Nat → Nat → List GlCmd
  | .vec3d, stride, location, offset => vertVec3DAttribPointer stride location offset
  | .rgba, stride, location, offset => vertRGBAAttribPointer stride location offset
  | .i8v, stride, location, offset => vertI8AttribPointer stride location offset
  | .i8f, stride, location, offset => vertI8FloatAttribPointer stride location offset

/-! ### syn-level input to the derive (render_derive/src/lib.rs)

The derive inspects each struct field's attributes. We model just the shapes
the code distinguishes: a literal that is a string / an integer / something
else, an expression that is a literal or not, an attribute meta that is
name-value form or not. -/

inductive SynLit : Type where
  | str (contents : String)
  | int (contents : String)
  | otherLit
  deriving DecidableEq

inductive SynExpr : Type where
  | lit (l : SynLit)
  | nonLit
  deriving DecidableEq

inductive SynMeta : Type where
  | nameValue (value : SynExpr)
  | pathOnly
  | listForm
  deriving DecidableEq

structure SynAttr : Type where
  path : String
  meta : SynMeta
  deriving DecidableEq

/-- One named field of the vertex record struct handed to the derive. -/
structure RecField : Type where
  name : String
  attrs : List SynAttr
  ty : FieldTy
  deriving DecidableEq

/-- The `syn::Data` shapes `generate_vertex_attrib_pointer_calls` matches on:
only a struct with named fields is accepted. -/
inductive DeriveData : Type where
  | structNamed (fields : List RecField)
  | structUnnamed
  | structUnit
  | enumData
  | unionData
  deriving DecidableEq

/-- `expr_to_string` (lib.rs lines 93-101): the expression must be a string
literal, otherwise the build panics with "Unexpected string literal". -/
def expr_to_string : SynExpr → Except String String
  | .lit (.str s) => .ok s
  | _ => .error "Unexpected string literal"

/-- The identifier check syn's `xid_ok` applies to an integer literal's
suffix (ASCII fragment of XID, which covers every suffix occurring here):
a nonempty string starting with a letter or underscore and continuing with
letters, digits or underscores. -/
def xid_ok : List Char → Bool
  | [] => false
  | c :: rest =>
    (c.isAlpha || c == '_') && rest.all (fun d => d.isAlphanum || d == '_')

/-- One digit of the given base, exactly as the digit arms of syn's
`parse_lit_int` loop compute it: decimal digits always match; the hex
letters match only when the base exceeds 10. The caller separately rejects
a digit value at or above the base. -/
def litDigitVal (base : Nat) (c : Char) : Option Nat :=
  if 48 ≤ c.toNat ∧ c.toNat ≤ 57 then some (c.toNat - 48)
  else if 97 ≤ c.toNat ∧ c.toNat ≤ 102 ∧ 10 < base then some (c.toNat - 87)
  else if 65 ≤ c.toNat ∧ c.toNat ≤ 70 ∧ 10 < base then some (c.toNat - 55)
  else none

/-- The scan syn's `parse_lit_int` performs after an `e`/`E` in a base-10
literal, deciding whether the whole token is a float (result `true`: the
parse returns none): underscores are skipped, a sign makes it a float,
digits set `has_exp`; at the first other character the token is a float
exactly when `has_exp` is set and the remainder is identifier-like,
and at the end of input it is a float exactly when `has_exp` is set. -/
def isFloatExponent : List Char → Bool → Bool
  | [], hasExp => hasExp
  | c :: rest, hasExp =>
    if c == '_' then isFloatExponent rest hasExp
    else if c == '-' || c == '+' then true
    else if c.isDigit then isFloatExponent rest true
    else hasExp && xid_ok (c :: rest)

/-- The digit-folding loop of syn's `parse_lit_int`: skip underscores,
reject a decimal point in base 10 and a genuine float exponent, fold digits
(rejecting one at or above the base), and stop at the first other character,
which starts the suffix. Returns the accumulated value, whether any digit
was seen, and the suffix characters. -/
def parse_lit_int_loop (base : Nat) : List Char → Nat → Bool → Option (Nat × Bool × List Char)
  | [], value, hasDigit => some (value, hasDigit, [])
  | c :: rest, value, hasDigit =>
    if c == '_' then parse_lit_int_loop base rest value hasDigit
    else if c == '.' ∧ base = 10 then none
    else if (c == 'e' || c == 'E') ∧ base = 10 then
      if isFloatExponent rest false then none else some (value, hasDigit, c :: rest)
    else
      match litDigitVal base c with
      | some d =>
        if base ≤ d then none
        else parse_lit_int_loop base rest (value * base + d) true
      | none => some (value, hasDigit, c :: rest)

/-- syn's `parse_lit_int` (lit.rs), the validation behind `LitInt::new`,
transliterated from the syn crate (an external collaborator of the derive):
strip an optional leading minus, read an optional radix prefix `0x`/`0o`/`0b`
(no prefix requires a leading decimal digit), fold the digits, require at
least one digit, and require an empty or identifier-like suffix. Returns the
sign and the numeric value — the decimal digits `base10_parse` later reads —
with the suffix validated and discarded, as `base10_parse` ignores it. -/
def parse_lit_int (s : String) : Option (Bool × Nat) :=
  let signSplit : Bool × List Char :=
    match s.data with
    | '-' :: rest => (true, rest)
    | other => (false, other)
  let baseSplit : Option (Nat × List Char) :=
    match signSplit.2 with
    | '0' :: 'x' :: rest => some (16, rest)
    | '0' :: 'o' :: rest => some (8, rest)
    | '0' :: 'b' :: rest => some (2, rest)
    | c :: rest => if c.isDigit then some (10, c :: rest) else none
    | [] => none
  match baseSplit with
  | none => none
  | some (base, digits) =>
    match parse_lit_int_loop base digits 0 false with
    | none => none
    | some (value, hasDigit, suffix) =>
      if hasDigit = false then none
      else if suffix.isEmpty || xid_ok suffix then some (signSplit.1, value)
      else none

/-- `expr_to_usize` (lib.rs lines 86-90). The source builds a `syn::LitInt`
from the string contents and calls `base10_parse::<usize>()`. `LitInt::new`
panics with "Not an integer literal: `...`" when the contents fail
`parse_lit_int`; `base10_parse` fails — reaching the source's own panic
"Expected integer literal 2" — when the parsed value is negative or does
not fit a 64-bit `usize`. -/
def expr_to_usize (e : SynExpr) : Except String Nat :=
  match expr_to_string e with
  | .error m => .error m
  | .ok s =>
    match parse_lit_int s with
    | none => .error ("Not an integer literal: `" ++ s ++ "`")
    | some (negative, value) =>
      if negative then .error "Expected integer literal 2"
      else if value < 2 ^ 64 then .ok value
      else .error "Expected integer literal 2"

/-- What the derive extracts from one field: its type token and the parsed
location value (lib.rs lines 53-83, before offset/stride are filled in). -/
structure GenField : Type where
  ty : FieldTy
  location : Nat
  deriving DecidableEq

/-- `generate_struct_field_vertex_attrib_pointer_call` (lib.rs lines 53-83):
take the first `location` attribute (panic naming the field if absent),
require name-value form (panic naming the field otherwise), and parse the
value through `expr_to_usize`. -/
def generate_struct_field_call (f : RecField) : Except String GenField :=
  match f.attrs.find? (fun a => a.path == "location") with
  | none => .error ("Field " ++ f.name ++ " is missing #[location = ?] attribute")
  | some attr =>
    match attr.meta with
    | .nameValue v =>
      match expr_to_usize v with
      | .error m => .error m
      | .ok loc => .ok { ty := f.ty, location := loc }
    | _ =>
      .error ("Field " ++ f.name ++ " location attribute value must be a string literal")

/-- The per-field map of `generate_vertex_attrib_pointer_calls`
(lib.rs lines 39-51): `fields.named.iter().map(...).collect()`, where the
first panicking field aborts the build. -/
def generateCalls : List RecField → Except String (List GenField)
  | [] => .ok []
  | f :: rest =>
    match generate_struct_field_call f with
    | .error e => .error e
    | .ok g =>
      match generateCalls rest with
      | .error e => .error e
      | .ok gs => .ok (g :: gs)

/-- `generate_vertex_attrib_pointer_calls` (lib.rs lines 39-51): anything but
a named-field struct panics. -/
def generate_vertex_attrib_pointer_calls : DeriveData → Except String (List GenField)
  | .structNamed fields => generateCalls fields
  | _ => .error "#[derive(VertexAttribPointers)] is only defined for structs"

/-- One `#field_ty::vertex_attrib_pointer(gl, stride, location, offset)` call
of the generated `vertex_attrib_pointers` function. -/
structure DescribeCall : Type where
  ty : FieldTy
  stride : Nat
  location : Nat
  offset : Nat
  deriving DecidableEq

/-- The generated per-field calls (lib.rs lines 25-35 and 76-82): starting
from `offset = 0`, each field is described at the running offset, then
`offset` grows by `size_of::<#field_ty>()`; every call receives the same
`stride`. -/
def buildCalls (stride : Nat) : List GenField → Nat → List DescribeCall
  | [], _ => []
  | g :: rest, offset =>
    { ty := g.ty, stride := stride, location := g.location, offset := offset } ::
      buildCalls stride rest (offset + g.ty.sizeOf)

/-- The whole generated `vertex_attrib_pointers` function (lib.rs lines
25-35): `stride` is `::std::mem::size_of::<Self>()`, passed in here as
`selfSize` since Rust's layout of the annotated struct decides it. -/
def vertex_attrib_pointers_code (selfSize : Nat) (data : DeriveData) :
    Except String (List DescribeCall) :=
  match generate_vertex_attrib_pointer_calls data with
  | .error e => .error e
  | .ok gens => .ok (buildCalls selfSize gens 0)

/-- Sum of the declared fields' byte sizes. -/
def sumSizes (fields : List RecField) : Nat :=
  (fields.map (fun f => f.ty.sizeOf)).sum

/-- Byte size of a `repr(C, packed)` record: Rust guarantees no padding, so
the struct's `size_of` is exactly the sum of its field sizes. -/
def packedRecordSize (fields : List RecField) : Nat :=
  sumSizes fields

/-- `Buffer::static_draw_data` (buffer.rs lines 56-65): uploads
`data.len() * size_of::<T>()` bytes with `gl::BufferData` to
`gl::ARRAY_BUFFER` with `gl::STATIC_DRAW` usage. -/
def static_draw_data (len sizeOfT : Nat) : GlCmd :=
  GlCmd.bufferData GL_ARRAY_BUFFER (len * sizeOfT) GL_STATIC_DRAW

/-! ### resources.rs -/

/-- The error enum of resources.rs (lines 8-16). The wrapped `io::Error` is
carried as its description string. -/
inductive ResError : Type where
  | io (e : String)
  | fileContainsNil
  | failedToGetExePath
  deriving DecidableEq

/-- `resource_name_to_path` (resources.rs lines 65-73): split the logical
name on "/" and join each part onto the root. `PathBuf::join` with a
relative component is modelled as appending with a "/" separator. -/
def resource_name_to_path (root location : String) : String :=
  (location.splitOn "/").foldl (fun p part => p ++ "/" ++ part) root

/-- A file system oracle: maps a path to the file's bytes, or to the
description of the `io::Error` raised while opening, inspecting or reading
it (resources.rs lines 41-45 funnel all three `?` sites into `Error::Io`). -/
def Fs : Type := String → Except String (List Nat)

/-- `Resources::load_cstring` (resources.rs lines 39-53): read the whole
file (any IO failure becomes `Error::Io`), reject contents holding a 0 byte
with `Error::FileContainsNil`, otherwise hand the bytes to
`CString::from_vec_unchecked` unchanged. -/
def load_cstring (fs : Fs) (root name : String) : Except ResError (List Nat) :=
  match fs (resource_name_to_path root name) with
  | .error e => .error (.io e)
  | .ok buffer =>
    if buffer.any (fun b => b == 0) then .error .fileContainsNil
    else .ok buffer

/-! ### shader.rs -/

/-- The error enum of shader.rs (lines 8-28). -/
inductive ShaderError : Type where
  | resourceLoad (name : String) (inner : ResError)
  | canNotDetermineShaderTypeForResource (name : String)
  | compileError (name : String) (message : String)
  | linkError (name : String) (message : String)
  deriving DecidableEq

/-- Rust's `str::ends_with`: the suffix's characters close the string. -/
def strEndsWith (s suffix : String) : Bool :=
  s.data.drop (s.data.length - suffix.data.length) == suffix.data

/-- `POSSIBLE_EXT` of `Shader::from_res` (shader.rs lines 150-151). -/
def POSSIBLE_EXT : List (String × Nat) :=
  [(".vert", GL_VERTEX_SHADER), (".frag", GL_FRAGMENT_SHADER)]

/-- The shader-kind classification of `Shader::from_res` (shader.rs lines
154-158): the first entry of `POSSIBLE_EXT` whose extension ends the
resource name, if any. -/
def shader_kind_for (name : String) : Option Nat :=
  (POSSIBLE_EXT.find? (fun p => strEndsWith name p.1)).map (fun p => p.2)

/-- GPU oracle for the driver-dependent outcomes: compiling a source of a
given kind yields a shader id or the info log (shader.rs
`shader_from_source`, lines 209-252), and linking a list of shader ids
yields a program id or the info log (`Program::from_shaders`, lines
63-115, whose attach/link/status/log/detach sequence is driver state). -/
structure GlApi : Type where
  compile : Nat → List Nat → Except String Nat
  link : List Nat → Except String Nat

/-- `Shader::from_res` (shader.rs lines 148-171): classify by extension,
then load through `Resources::load_cstring`, then compile — each failure
wrapped in its own typed error carrying the resource name. -/
def Shader.from_res (gl : GlApi) (fs : Fs) (root name : String) :
    Except ShaderError Nat :=
  match shader_kind_for name with
  | none => .error (.canNotDetermineShaderTypeForResource name)
  | some kind =>
    match load_cstring fs root name with
    | .error e => .error (.resourceLoad name e)
    | .ok source =>
      match gl.compile kind source with
      | .error message => .error (.compileError name message)
      | .ok id => .ok id

/-- The `collect::<Result<Vec<Shader>, Error>>()` of `Program::from_res`
(shader.rs lines 50-53): left to right, stopping at the first error. -/
def collectShaders (gl : GlApi) (fs : Fs) (root : String) :
    List String → Except ShaderError (List Nat)
  | [] => .ok []
  | rn :: rest =>
    match Shader.from_res gl fs root rn with
    | .error e => .error e
    | .ok s =>
      match collectShaders gl fs root rest with
      | .error e => .error e
      | .ok ss => .ok (s :: ss)

/-- `Program::from_res` (shader.rs lines 39-60): derive the two resource
names by appending `".vert"` and `".frag"`, build both shaders, then link,
wrapping a link failure as `Error::LinkError` under the logical name. -/
def Program.from_res (gl : GlApi) (fs : Fs) (root name : String) :
    Except ShaderError Nat :=
  let resource_names := [".vert", ".frag"].map (fun ext => name ++ ext)
  match collectShaders gl fs root resource_names with
  | .error e => .error e
  | .ok shaders =>
    match gl.link shaders with
    | .error message => .error (.linkError name message)
    | .ok id => .ok id

/-! ### main.rs : failure_to_string -/

/-- A `failure`-style error value: a display message, an optional backtrace
string, and optionally the error it wraps (its cause). -/
inductive Fail : Type where
  | base (display : String) (backtrace : Option String)
  | wrap (display : String) (backtrace : Option String) (cause : Fail)
  deriving DecidableEq

def Fail.display : Fail → String
  | .base d _ => d
  | .wrap d _ _ => d

def Fail.backtrace : Fail → Option String
  | .base _ b => b
  | .wrap _ b _ => b

/-- `Error::iter_chain` of the failure crate: begins with the error itself
(the outermost context) and walks down the causes to the root. -/
def Fail.iterChain : Fail → List Fail
  | .base d b => [.base d b]
  | .wrap d b c => .wrap d b c :: c.iterChain

/-- How the loop body of `failure_to_string` (main.rs lines 211-224) renders
one cause: its display text, then either " This happened at {backtrace}" on
a nonempty backtrace or just the newline. -/
def renderCause (c : Fail) : String :=
  c.display ++
    match c.backtrace with
    | some bt => if bt.length > 0 then " This happened at " ++ bt ++ "\n" else "\n"
    | none => "\n"

/-- The separator written before every cause but the first
(main.rs line 212, `writeln!`). -/
def causeSeparator : String := "   Which caused the following issue:\n"

/-- One iteration of the `for (i, cause) in ...` loop of `failure_to_string`
(main.rs lines 204-224): write the separator when `i > 0`, then the cause. -/
def renderStep (acc : String) (p : Nat × Fail) : String :=
  acc ++ (if p.1 > 0 then causeSeparator else "") ++ renderCause p.2

/-- `failure_to_string` (main.rs lines 199-228): iterate the chain, reverse
it, enumerate, and render each cause with the separator in front of every
entry whose index is positive. -/
def failure_to_string (e : Fail) : String :=
  (e.iterChain.reverse.enum).foldl renderStep ""

/-! ### Rendering a cause chain in a fixed order (for comparison with the
spec's description of `failure_to_string`) -/

/-- Separator-prefixed rendering of every cause after the first. -/
def sepTail : List Fail → String
  | [] => ""
  | c :: rest => causeSeparator ++ renderCause c ++ sepTail rest

/-- Render a list of causes in the order given, one per segment, with the
separator line between consecutive causes. -/
def renderChainList : List Fail → String
  | [] => ""
  | c :: rest => renderCause c ++ sepTail rest

/-- The spec's claimed output: the chain in iteration order, which for the
failure crate begins with the outermost (most context) error. -/
def renderOutermostFirst (e : Fail) : String :=
  renderChainList e.iterChain

/-- The chain reversed, so the innermost (root) cause comes first. -/
def renderInnermostFirst (e : Fail) : String :=
  renderChainList e.iterChain.reverse

/-! ### Concrete inputs used by the claims -/

/-- A vertex record pairing Rust `f32` coordinates with a to-be-packed RGBA
color. The numeric payload is carried as rationals: no arithmetic ever
touches it, only counting and `size_of` matter to the embedded code. -/
structure PackedColorVertex : Type where
  pos : Rat × Rat × Rat
  color : Rat × Rat × Rat × Rat

/-- The three vertices of the round-trip scenario. -/
def triangleVertices : List PackedColorVertex :=
  [{ pos := (0.5, -0.5, 0), color := (1, 0, 0, 1) },
   { pos := (-0.5, -0.5, 0), color := (0, 1, 0, 1) },
   { pos := (0, 0.5, 0), color := (0, 0, 1, 1) }]

/-- Field metadata of that record: a `VertVec3D` position at location 0
followed by a `VertRGBA` packed color at location 1. -/
def packedColorFields : List RecField :=
  [{ name := "pos",
     attrs := [{ path := "location", meta := .nameValue (.lit (.str "0")) }],
     ty := .vec3d },
   { name := "color",
     attrs := [{ path := "location", meta := .nameValue (.lit (.str "1")) }],
     ty := .rgba }]

/-- `::std::mem::size_of::<Self>()` for a record whose fields are drawn from
the data.rs vertex field types: all four are `#[repr(C, packed)]` structs of
alignment 1, so Rust lays any struct over them out with no padding —
whatever that struct's own repr — and its byte size is the sum of its field
sizes. -/
def recordSelfSize (fields : List RecField) : Nat :=
  sumSizes fields

/-- The location an author declared on a field, read off the field's own
attribute list the way the derive reads it: the first `location` attribute's
name-value payload, parsed as the derive parses it. Stated separately from
`generate_struct_field_call` so the generated calls can be compared against
each field's declaration. -/
def declaredLocation (f : RecField) : Option Nat :=
  (f.attrs.find? (fun a => a.path == "location")).bind (fun a =>
    match a.meta with
    | .nameValue v => (expr_to_usize v).toOption
    | _ => none)

/-- Total byte size of the first `i` extracted fields: the running offset the
generated code has reached before describing field `i`. -/
def prefixSizeG (gens : List GenField) (i : Nat) : Nat :=
  ((gens.take i).map (fun g => g.ty.sizeOf)).sum

/-- A file system on which every path fails to open. -/
def failingFs : Fs := fun _ => .error "file not found"

/-- A file system on which every path holds the bytes `[104, 0, 105]`,
which contain a 0 byte. -/
def nilByteFs : Fs := fun _ => .ok [104, 0, 105]

/-- A GPU oracle on which every compile and link succeeds. -/
def okGl : GlApi := { compile := fun _ _ => .ok 1, link := fun _ => .ok 7 }

lemma strEndsWith_iff {s ext : String} :
    strEndsWith s ext = true ↔
      s.data.drop (s.data.length - ext.data.length) = ext.data := by
  simp [strEndsWith]

lemma strEndsWith_append (name ext : String) :
    strEndsWith (name ++ ext) ext = true := by
  rw [strEndsWith_iff, String.data_append]
  have h : (name.data ++ ext.data).length - ext.data.length = name.data.length := by
    simp
  rw [h, List.drop_left]

lemma endsWith_data_eq {s e₁ e₂ : String} (hlen : e₁.data.length = e₂.data.length)
    (h₁ : strEndsWith s e₁ = true) (h₂ : strEndsWith s e₂ = true) :
    e₁.data = e₂.data := by
  rw [strEndsWith_iff] at h₁ h₂
  rw [← h₁, ← h₂, hlen]

lemma not_vert_of_frag {name : String} (h : strEndsWith name ".frag" = true) :
    strEndsWith name ".vert" = false := by
  by_contra hv
  rw [Bool.not_eq_false] at hv
  have := @endsWith_data_eq name ".vert" ".frag" (by decide) hv h
  simp at this

lemma shader_kind_for_of_vert {name : String}
    (h : strEndsWith name ".vert" = true) :
    shader_kind_for name = some GL_VERTEX_SHADER := by
  simp [shader_kind_for, POSSIBLE_EXT, List.find?, h]

lemma shader_kind_for_of_frag {name : String}
    (h : strEndsWith name ".frag" = true) :
    shader_kind_for name = some GL_FRAGMENT_SHADER := by
  simp [shader_kind_for, POSSIBLE_EXT, List.find?, not_vert_of_frag h, h]

lemma shader_kind_for_of_neither {name : String}
    (hv : strEndsWith name ".vert" = false)
    (hf : strEndsWith name ".frag" = false) :
    shader_kind_for name = none := by
  simp [shader_kind_for, POSSIBLE_EXT, List.find?, hv, hf]

lemma Shader_from_res_no_kind {gl : GlApi} {fs : Fs} {root name : String}
    (h : shader_kind_for name = none) :
    Shader.from_res gl fs root name =
      .error (.canNotDetermineShaderTypeForResource name) := by
  simp [Shader.from_res, h]

lemma Shader_from_res_load_error {gl : GlApi} {fs : Fs} {root name : String}
    {k : Nat} {e : ResError}
    (hk : shader_kind_for name = some k)
    (he : load_cstring fs root name = .error e) :
    Shader.from_res gl fs root name = .error (.resourceLoad name e) := by
  simp [Shader.from_res, hk, he]

lemma Shader_from_res_compile_error {gl : GlApi} {fs : Fs} {root name : String}
    {k : Nat} {src : List Nat} {msg : String}
    (hk : shader_kind_for name = some k)
    (hs : load_cstring fs root name = .ok src)
    (hc : gl.compile k src = .error msg) :
    Shader.from_res gl fs root name = .error (.compileError name msg) := by
  simp [Shader.from_res, hk, hs, hc]

lemma Program_from_res_eq (gl : GlApi) (fs : Fs) (root name : String) :
    Program.from_res gl fs root name =
      match Shader.from_res gl fs root (name ++ ".vert") with
      | .error e => .error e
      | .ok s1 =>
        match Shader.from_res gl fs root (name ++ ".frag") with
        | .error e => .error e
        | .ok s2 =>
          match gl.link [s1, s2] with
          | .error message => .error (.linkError name message)
          | .ok id => .ok id := by
  simp only [Program.from_res, List.map, collectShaders]
  cases Shader.from_res gl fs root (name ++ ".vert") with
  | error e => rfl
  | ok s1 =>
    cases Shader.from_res gl fs root (name ++ ".frag") with
    | error e => rfl
    | ok s2 => rfl

lemma foldl_renderStep_enumFrom (l : List Fail) :
    ∀ (acc : String) (n : Nat), 0 < n →
      (List.enumFrom n l).foldl renderStep acc = acc ++ sepTail l := by
  induction l with
  | nil =>
    intro acc n _
    simp [sepTail, String.append_empty]
  | cons c rest ih =>
    intro acc n hn
    rw [List.enumFrom_cons, List.foldl_cons]
    have hstep : renderStep acc (n, c) = acc ++ (causeSeparator ++ renderCause c) := by
      simp [renderStep, hn, String.append_assoc]
    rw [hstep, ih _ (n + 1) (Nat.succ_pos n)]
    simp [sepTail, String.append_assoc]

lemma gsc_ok_spec {f : RecField} {g : GenField}
    (h : generate_struct_field_call f = .ok g) :
    g.ty = f.ty ∧ declaredLocation f = some g.location := by
  unfold generate_struct_field_call at h
  unfold declaredLocation
  split at h
  · simp at h
  · rename_i attr hfind
    split at h
    · rename_i v hm
      split at h
      · simp at h
      · rename_i loc hu
        simp only [Except.ok.injEq] at h
        subst h
        rw [hfind]
        simp [Option.bind, hm, hu, Except.toOption]
    · simp at h

lemma generateCalls_ok_length {fields : List RecField} {gens : List GenField}
    (h : generateCalls fields = .ok gens) : gens.length = fields.length := by
  induction fields generalizing gens with
  | nil => simp [generateCalls] at h; subst h; rfl
  | cons f rest ih =>
    unfold generateCalls at h
    cases hf : generate_struct_field_call f with
    | error e => rw [hf] at h; simp at h
    | ok g =>
      rw [hf] at h
      cases hr : generateCalls rest with
      | error e => rw [hr] at h; simp at h
      | ok gs =>
        rw [hr] at h
        simp only [Except.ok.injEq] at h
        subst h
        simp [ih hr]

lemma generateCalls_ok_get {fields : List RecField} {gens : List GenField}
    (h : generateCalls fields = .ok gens) :
    ∀ i (hf : i < fields.length) (hg : i < gens.length),
      generate_struct_field_call (fields.get ⟨i, hf⟩) = .ok (gens.get ⟨i, hg⟩) := by
  induction fields generalizing gens with
  | nil => intro i hf _; simp at hf
  | cons f rest ih =>
    unfold generateCalls at h
    cases hfc : generate_struct_field_call f with
    | error e => rw [hfc] at h; simp at h
    | ok g =>
      rw [hfc] at h
      cases hr : generateCalls rest with
      | error e => rw [hr] at h; simp at h
      | ok gs =>
        rw [hr] at h
        simp only [Except.ok.injEq] at h
        subst h
        intro i hf hg
        cases i with
        | zero => simpa using hfc
        | succ i =>
          simp only [List.get_eq_getElem, List.getElem_cons_succ]
          have hf' : i < rest.length := by simpa using hf
          have hg' : i < gs.length := by simpa using hg
          simpa using ih hr i hf' hg'

lemma prefixSizeG_zero (gens : List GenField) : prefixSizeG gens 0 = 0 := rfl

lemma prefixSizeG_succ {gens : List GenField} {i : Nat} (hg : i < gens.length) :
    prefixSizeG gens (i + 1) = prefixSizeG gens i + (gens.get ⟨i, hg⟩).ty.sizeOf := by
  have hlen : i < (gens.map (fun g => g.ty.sizeOf)).length := by simpa using hg
  unfold prefixSizeG
  rw [List.map_take, List.map_take, List.sum_take_succ _ i hlen]
  simp

lemma buildCalls_length (stride : Nat) (gens : List GenField) (off : Nat) :
    (buildCalls stride gens off).length = gens.length := by
  induction gens generalizing off with
  | nil => rfl
  | cons g rest ih => simp [buildCalls, ih]

lemma buildCalls_get (stride : Nat) (gens : List GenField) :
    ∀ (off i : Nat) (hb : i < (buildCalls stride gens off).length)
      (hg : i < gens.length),
      (buildCalls stride gens off).get ⟨i, hb⟩ =
        { ty := (gens.get ⟨i, hg⟩).ty, stride := stride,
          location := (gens.get ⟨i, hg⟩).location,
          offset := off + prefixSizeG gens i } := by
  induction gens with
  | nil => intro off i _ hg; simp at hg
  | cons g rest ih =>
    intro off i hb hg
    cases i with
    | zero => simp [buildCalls, prefixSizeG]
    | succ i =>
      have hb' : i < (buildCalls stride rest (off + g.ty.sizeOf)).length := by
        simpa [buildCalls] using hb
      have hg' : i < rest.length := by simpa using hg
      have hrec := ih (off + g.ty.sizeOf) i hb' hg'
      simp only [List.get_eq_getElem] at hrec ⊢
      simp only [buildCalls, List.getElem_cons_succ]
      rw [hrec]
      have hpre : prefixSizeG (g :: rest) (i + 1) = g.ty.sizeOf + prefixSizeG rest i := by
        simp [prefixSizeG]
      rw [hpre]
      simp [Nat.add_assoc]

lemma code_ok_inv {selfSize : Nat} {fields : List RecField} {calls : List DescribeCall}
    (h : vertex_attrib_pointers_code selfSize (.structNamed fields) = .ok calls) :
    ∃ gens, generateCalls fields = .ok gens ∧ calls = buildCalls selfSize gens 0 := by
  simp only [vertex_attrib_pointers_code, generate_vertex_attrib_pointer_calls] at h
  cases hg : generateCalls fields with
  | error e => rw [hg] at h; simp at h
  | ok gens =>
    rw [hg] at h
    simp only [Except.ok.injEq] at h
    exact ⟨gens, rfl, h.symm⟩

/-- C1: for every vertex record over this repository's field types on which
the layout deriver runs and succeeds, the generated `vertex_attrib_pointers`
invokes field 0's describe call at byte offset 0 and field `i`'s at
`offset[i-1]` plus field `i-1`'s byte size, and every call with stride equal
to the sum of all the fields' byte sizes: the emitted stride is
`size_of::<Self>()`, embedded as `recordSelfSize`, which is that sum because
all four data.rs field types are `repr(C, packed)` with alignment 1, so no
record over them carries padding. -/
theorem spec_c1_layout_offsets_stride (fields : List RecField)
    (calls : List DescribeCall)
    (h : vertex_attrib_pointers_code (recordSelfSize fields)
      (.structNamed fields) = .ok calls) :
    calls.length = fields.length ∧
    (∀ hz : 0 < calls.length, (calls.get ⟨0, hz⟩).offset = 0) ∧
    (∀ i (hi1 : i + 1 < calls.length) (hi : i < calls.length) (hif : i < fields.length),
      (calls.get ⟨i + 1, hi1⟩).offset =
        (calls.get ⟨i, hi⟩).offset + (fields.get ⟨i, hif⟩).ty.sizeOf) ∧
    (∀ i (hi : i < calls.length), (calls.get ⟨i, hi⟩).stride = sumSizes fields) := by
  obtain ⟨gens, hg, rfl⟩ := code_ok_inv h
  have hlg : gens.length = fields.length := generateCalls_ok_length hg
  have hbl : (buildCalls (recordSelfSize fields) gens 0).length = gens.length :=
    buildCalls_length _ _ _
  refine ⟨by rw [hbl, hlg], ?_, ?_, ?_⟩
  · intro hz
    have hgz : 0 < gens.length := by rw [hbl] at hz; exact hz
    rw [buildCalls_get _ _ _ _ hz hgz]
    simp [prefixSizeG_zero]
  · intro i hi1 hi hif
    have hgi1 : i + 1 < gens.length := by rw [hbl] at hi1; exact hi1
    have hgi : i < gens.length := Nat.lt_of_succ_lt hgi1
    rw [buildCalls_get _ _ _ _ hi1 hgi1, buildCalls_get _ _ _ _ hi hgi]
    simp only
    rw [prefixSizeG_succ hgi]
    have hty : (gens.get ⟨i, hgi⟩).ty = (fields.get ⟨i, hif⟩).ty :=
      (gsc_ok_spec (generateCalls_ok_get hg i hif hgi)).1
    rw [hty]
    omega
  · intro i hi
    have hgi : i < gens.length := by rw [hbl] at hi; exact hi
    rw [buildCalls_get _ _ _ _ hi hgi]
    rfl

/-- C1 witness: on the packed two-field record the derive yields two calls
whose first call's stride equals the sum of the field sizes. -/
theorem spec_c1_witness :
    (([{ ty := FieldTy.vec3d, stride := 16, location := 0, offset := 0 },
       { ty := FieldTy.rgba, stride := 16, location := 1, offset := 12 }] :
        List DescribeCall).get ⟨0, by decide⟩).stride = sumSizes packedColorFields :=
  (spec_c1_layout_offsets_stride packedColorFields _ (by decide)).2.2.2
    0 (by decide)

/-- C2: whenever the derive succeeds, it emits one describe call per field,
in field declaration order, and call `i` carries exactly the location parsed
from field `i`'s own `#[location = ...]` attribute and field `i`'s own type,
never a recomputed, defaulted or reordered one. -/
theorem spec_c2_declared_locations (selfSize : Nat) (fields : List RecField)
    (calls : List DescribeCall)
    (h : vertex_attrib_pointers_code selfSize (.structNamed fields) = .ok calls) :
    calls.length = fields.length ∧
    ∀ i (hic : i < calls.length) (hif : i < fields.length),
      declaredLocation (fields.get ⟨i, hif⟩) = some (calls.get ⟨i, hic⟩).location ∧
      (calls.get ⟨i, hic⟩).ty = (fields.get ⟨i, hif⟩).ty := by
  obtain ⟨gens, hg, rfl⟩ := code_ok_inv h
  have hlg : gens.length = fields.length := generateCalls_ok_length hg
  have hbl : (buildCalls selfSize gens 0).length = gens.length := buildCalls_length _ _ _
  refine ⟨by rw [hbl, hlg], ?_⟩
  intro i hic hif
  have hgi : i < gens.length := by rw [hbl] at hic; exact hic
  have hspec := gsc_ok_spec (generateCalls_ok_get hg i hif hgi)
  rw [buildCalls_get _ _ _ _ hic hgi]
  exact ⟨hspec.2, hspec.1⟩

/-- C2 witness: on the packed two-field record, the second call's location is
the one declared on the second field. -/
theorem spec_c2_witness :
    declaredLocation (packedColorFields.get ⟨1, by decide⟩) =
      some (([{ ty := FieldTy.vec3d, stride := 16, location := 0, offset := 0 },
              { ty := FieldTy.rgba, stride := 16, location := 1, offset := 12 }] :
              List DescribeCall).get ⟨1, by decide⟩).location :=
  ((spec_c2_declared_locations 16 packedColorFields _ (by decide)).2
    1 (by decide) (by decide)).1

/-- C4: `Program::from_res` derives exactly the two resource names
`name ++ ".vert"` and `name ++ ".frag"` (whose shader kinds are always
determined from those extensions), and fails fast with the typed error of
the first failing stage: a vertex-shader load failure yields that resource's
`ResourceLoad` error regardless of the fragment or link oracles, a vertex
compile failure its `CompileError`, then the same for the fragment resource,
and finally a link failure the logical name's `LinkError`; when every stage
succeeds the linked program id is returned. Independence from later stages
holds because the file system and GPU oracles are universally quantified and
unconstrained beyond the failing stage. -/
theorem spec_c4_from_res_stages (gl : GlApi) (fs : Fs) (root name : String) :
    (shader_kind_for (name ++ ".vert") = some GL_VERTEX_SHADER ∧
     shader_kind_for (name ++ ".frag") = some GL_FRAGMENT_SHADER) ∧
    (∀ e, load_cstring fs root (name ++ ".vert") = .error e →
      Program.from_res gl fs root name =
        .error (.resourceLoad (name ++ ".vert") e)) ∧
    (∀ src msg, load_cstring fs root (name ++ ".vert") = .ok src →
      gl.compile GL_VERTEX_SHADER src = .error msg →
      Program.from_res gl fs root name =
        .error (.compileError (name ++ ".vert") msg)) ∧
    (∀ s1, Shader.from_res gl fs root (name ++ ".vert") = .ok s1 →
      (∀ e, load_cstring fs root (name ++ ".frag") = .error e →
        Program.from_res gl fs root name =
          .error (.resourceLoad (name ++ ".frag") e)) ∧
      (∀ src msg, load_cstring fs root (name ++ ".frag") = .ok src →
        gl.compile GL_FRAGMENT_SHADER src = .error msg →
        Program.from_res gl fs root name =
          .error (.compileError (name ++ ".frag") msg)) ∧
      (∀ s2, Shader.from_res gl fs root (name ++ ".frag") = .ok s2 →
        (∀ msg, gl.link [s1, s2] = .error msg →
          Program.from_res gl fs root name = .error (.linkError name msg)) ∧
        (∀ pid, gl.link [s1, s2] = .ok pid →
          Program.from_res gl fs root name = .ok pid))) := by
  have hkv : shader_kind_for (name ++ ".vert") = some GL_VERTEX_SHADER :=
    shader_kind_for_of_vert (strEndsWith_append name ".vert")
  have hkf : shader_kind_for (name ++ ".frag") = some GL_FRAGMENT_SHADER :=
    shader_kind_for_of_frag (strEndsWith_append name ".frag")
  refine ⟨⟨hkv, hkf⟩, ?_, ?_, ?_⟩
  · intro e he
    rw [Program_from_res_eq, Shader_from_res_load_error hkv he]
  · intro src msg hs hc
    rw [Program_from_res_eq, Shader_from_res_compile_error hkv hs hc]
  · intro s1 h1
    refine ⟨?_, ?_, ?_⟩
    · intro e he
      rw [Program_from_res_eq, h1, Shader_from_res_load_error hkf he]
    · intro src msg hs hc
      rw [Program_from_res_eq, h1, Shader_from_res_compile_error hkf hs hc]
    · intro s2 h2
      constructor
      · intro msg hl
        rw [Program_from_res_eq, h1, h2]
        simp [hl]
      · intro pid hl
        rw [Program_from_res_eq, h1, h2]
        simp [hl]

/-- C4 witness: on a file system where every open fails, `Program::from_res`
returns the vertex resource's load error. -/
theorem spec_c4_witness :
    Program.from_res okGl failingFs "/root" "triangle" =
      Except.error (.resourceLoad ("triangle" ++ ".vert") (.io "file not found")) :=
  (spec_c4_from_res_stages okGl failingFs "/root" "triangle").2.1
    (.io "file not found") rfl

/-- C5: a resource name ending in ".vert" is classified as the vertex stage
and one ending in ".frag" as the fragment stage; in particular
"triangle.vert" and "triangle.frag" classify that way, while "triangle.glsl"
makes `Shader::from_res` return `CanNotDetermineShaderTypeForResource` with
that resource name for every file system and GPU oracle — so before any load
is attempted. -/
theorem spec_c5_classification :
    shader_kind_for "triangle.vert" = some GL_VERTEX_SHADER ∧
    shader_kind_for "triangle.frag" = some GL_FRAGMENT_SHADER ∧
    (∀ (gl : GlApi) (fs : Fs) (root : String),
      Shader.from_res gl fs root "triangle.glsl" =
        .error (.canNotDetermineShaderTypeForResource "triangle.glsl")) ∧
    (∀ name, strEndsWith name ".vert" = true →
      shader_kind_for name = some GL_VERTEX_SHADER) ∧
    (∀ name, strEndsWith name ".frag" = true →
      shader_kind_for name = some GL_FRAGMENT_SHADER) ∧
    (∀ (gl : GlApi) (fs : Fs) (root name : String),
      strEndsWith name ".vert" = false → strEndsWith name ".frag" = false →
      Shader.from_res gl fs root name =
        .error (.canNotDetermineShaderTypeForResource name)) := by
  refine ⟨by decide, by decide, ?_, ?_, ?_, ?_⟩
  · intro gl fs root
    exact Shader_from_res_no_kind (by decide)
  · intro name h
    exact shader_kind_for_of_vert h
  · intro name h
    exact shader_kind_for_of_frag h
  · intro gl fs root name hv hf
    exact Shader_from_res_no_kind (shader_kind_for_of_neither hv hf)

/-- C5 witness: the classification applied at concrete resource names. -/
theorem spec_c5_witness :
    shader_kind_for ("tri" ++ ".vert") = some GL_VERTEX_SHADER ∧
    shader_kind_for ("tri" ++ ".frag") = some GL_FRAGMENT_SHADER ∧
    Shader.from_res okGl failingFs "/root" "shader.obj" =
      Except.error (.canNotDetermineShaderTypeForResource "shader.obj") :=
  ⟨spec_c5_classification.2.2.2.1 ("tri" ++ ".vert") (by decide),
   spec_c5_classification.2.2.2.2.1 ("tri" ++ ".frag") (by decide),
   spec_c5_classification.2.2.2.2.2 okGl failingFs "/root" "shader.obj"
     (by decide) (by decide)⟩

/-- C6: the packed record of a 3-float position followed by a 4x10-bit
packed color has byte size 16 (the derived stride), the color field is
described at offset 12, and uploading the 3-vertex slice through
`static_draw_data` passes exactly 3 * 16 = 48 bytes to `glBufferData`. -/
theorem spec_c6_roundtrip :
    packedRecordSize packedColorFields = 16 ∧
    vertex_attrib_pointers_code (packedRecordSize packedColorFields)
        (DeriveData.structNamed packedColorFields) =
      Except.ok
        [{ ty := FieldTy.vec3d, stride := 16, location := 0, offset := 0 },
         { ty := FieldTy.rgba, stride := 16, location := 1, offset := 12 }] ∧
    triangleVertices.length = 3 ∧
    static_draw_data triangleVertices.length (packedRecordSize packedColorFields) =
      GlCmd.bufferData GL_ARRAY_BUFFER 48 GL_STATIC_DRAW :=
  ⟨rfl, by decide, rfl, rfl⟩

/-- C7: each field type's describe operation registers exactly its own
classification at the given stride, location and offset: `VertVec3D` as 3
`FLOAT` components, non-normalized, through the float pointer form;
`VertRGBA` as 4 `UNSIGNED_INT_2_10_10_10_REV` components, normalized, float
pointer form; `VertI8` as 1 `BYTE` component through the raw-integer pointer
form; `VertI8Float` as 1 `BYTE` component, normalized, float pointer form. -/
theorem spec_c7_describe_table (stride location offset : Nat) :
    FieldTy.describe .vec3d stride location offset =
      [GlCmd.enableVertexAttribArray location,
       GlCmd.vertexAttribPointer location 3 GL_FLOAT false stride offset] ∧
    FieldTy.describe .rgba stride location offset =
      [GlCmd.enableVertexAttribArray location,
       GlCmd.vertexAttribPointer location 4 GL_UNSIGNED_INT_2_10_10_10_REV true
         stride offset] ∧
    FieldTy.describe .i8v stride location offset =
      [GlCmd.enableVertexAttribArray location,
       GlCmd.vertexAttribIPointer location 1 GL_BYTE stride offset] ∧
    FieldTy.describe .i8f stride location offset =
      [GlCmd.enableVertexAttribArray location,
       GlCmd.vertexAttribPointer location 1 GL_BYTE true stride offset] :=
  ⟨rfl, rfl, rfl, rfl⟩

/-- C8 (amended): `failure_to_string` prints the full chain of causes
innermost (root) cause first — the reverse of the chain's iteration order,
which begins with the outermost error — rendering one cause per segment with
the line "   Which caused the following issue:" between consecutive
causes. -/
theorem spec_c8_prints_innermost_first (e : Fail) :
    failure_to_string e = renderInnermostFirst e := by
  unfold failure_to_string renderInnermostFirst
  cases hl : e.iterChain.reverse with
  | nil => simp [renderChainList, List.enum]
  | cons c rest =>
    rw [List.enum_cons, List.foldl_cons]
    have hstep : renderStep "" (0, c) = renderCause c := by
      simp [renderStep, String.empty_append]
    rw [hstep, foldl_renderStep_enumFrom rest (renderCause c) 1 Nat.one_pos]
    rfl

/-- C8 counterexample: for the two-element chain whose outermost display is
"A" wrapping a root cause displaying "B", `failure_to_string` prints "B"
first, not "A" — reversing the iteration order yields innermost-first, so
the claimed outermost-context-first output is refuted. -/
theorem spec_c8_counterexample :
    failure_to_string (Fail.wrap "A" none (Fail.base "B" none)) =
      "B\n   Which caused the following issue:\nA\n" ∧
    renderOutermostFirst (Fail.wrap "A" none (Fail.base "B" none)) =
      "A\n   Which caused the following issue:\nB\n" ∧
    failure_to_string (Fail.wrap "A" none (Fail.base "B" none)) ≠
      renderOutermostFirst (Fail.wrap "A" none (Fail.base "B" none)) := by
  decide

/-- C9: `Resources::load_cstring` fails with `Error::Io` exactly on a file
system failure at the resolved path, fails with the distinct
`Error::FileContainsNil` exactly when the file's byte content holds at least
one 0 byte, and otherwise returns the full byte content; the two error
variants are distinguishable. -/
theorem spec_c9_load_cstring (fs : Fs) (root name : String) :
    (∀ e, fs (resource_name_to_path root name) = .error e →
      load_cstring fs root name = .error (.io e)) ∧
    (∀ bytes, fs (resource_name_to_path root name) = .ok bytes →
      ((0 ∈ bytes → load_cstring fs root name = .error .fileContainsNil) ∧
       (0 ∉ bytes → load_cstring fs root name = .ok bytes))) ∧
    (load_cstring fs root name = .error .fileContainsNil ↔
      ∃ bytes, fs (resource_name_to_path root name) = .ok bytes ∧ 0 ∈ bytes) ∧
    (∀ e, ResError.io e ≠ ResError.fileContainsNil) := by
  refine ⟨?_, ?_, ?_, ?_⟩
  · intro e he
    simp [load_cstring, he]
  · intro bytes hb
    constructor
    · intro hmem
      have : bytes.any (fun b => b == 0) = true := by
        simp only [List.any_eq_true, beq_iff_eq]
        exact ⟨0, hmem, rfl⟩
      simp [load_cstring, hb, this]
    · intro hmem
      have : bytes.any (fun b => b == 0) = false := by
        simp only [List.any_eq_false, beq_iff_eq]
        intro x hx hx0
        exact hmem (hx0 ▸ hx)
      simp [load_cstring, hb, this]
  · constructor
    · intro h
      unfold load_cstring at h
      cases hb : fs (resource_name_to_path root name) with
      | error e => rw [hb] at h; simp at h
      | ok bytes =>
        rw [hb] at h
        refine ⟨bytes, rfl, ?_⟩
        by_cases hz : bytes.any (fun b => b == 0) = true
        · rw [List.any_eq_true] at hz
          obtain ⟨x, hx, hx0⟩ := hz
          rw [beq_iff_eq] at hx0
          exact hx0 ▸ hx
        · simp [hz] at h
    · rintro ⟨bytes, hb, hmem⟩
      have : bytes.any (fun b => b == 0) = true := by
        simp only [List.any_eq_true, beq_iff_eq]
        exact ⟨0, hmem, rfl⟩
      simp [load_cstring, hb, this]
  · intro e h
    cases h

/-- C9 witness: a file whose bytes contain 0 makes `load_cstring` fail with
`FileContainsNil`. -/
theorem spec_c9_witness :
    load_cstring nilByteFs "/root" "a.txt" = Except.error .fileContainsNil :=
  ((spec_c9_load_cstring nilByteFs "/root" "a.txt").2.1 [104, 0, 105] rfl).1
    (by decide)

end OpenglRs
